import Mathlib

/-!
# Verification of `Opm::WellState` initialization and column extraction

Shallow embedding of `opm/core/simulator/WellState.hpp` (class `WellState`,
method `init`, and the restart-offset accessors) and of the column
extraction routine exercised by the `ColumnExtract` tests.

C++ `double` values are modelled as exact rationals (`ℚ`); machine
floating point rounding is not modelled.  C `enum` values that the code
defensively asserts about (`wells->type[w]`) are modelled as `Int` with the
named constants `INJECTOR = 0`, `PRODUCER = 1`, so that the assertion in
`WellState::init` is meaningful: `init` returns `none` exactly when an
assertion fires, and `some state` otherwise.  Flat C arrays that are only
read (`well_cells`, `well_connpos`, the pressure field, phase
distributions) are modelled as total functions from `Nat`.
-/

/-- The control types of `well_controls.h` (`enum WellControlType`). -/
inductive WellControlType where
  | BHP
  | THP
  | RESERVOIR_RATE
  | SURFACE_RATE
deriving DecidableEq, Repr

/-- One entry of a well's control list: its type, its scalar target, and its
per-phase distribution row (`distr + np*i` in the C layout). -/
structure WellControl where
  kind : WellControlType
  target : ℚ
  distr : Nat → ℚ

/-- The opaque `WellControls` struct of `well_controls.c`: a stopped/open
flag, the current-control index, and the ordered control list. -/
structure WellControls where
  stopped : Bool
  current : Nat
  controls : List WellControl

/-- Default element used for out-of-range reads of a control array (the C
code never performs such a read on valid input; claims that talk about the
current control assume `current < number of controls`). -/
def dfltControl : WellControl :=
  { kind := WellControlType.BHP, target := 0, distr := fun _ => 0 }

/-- `well_controls_well_is_stopped`. -/
def well_controls_well_is_stopped (c : WellControls) : Bool :=
  c.stopped

/-- `well_controls_get_num`. -/
def well_controls_get_num (c : WellControls) : Nat :=
  c.controls.length

/-- `well_controls_iget_type(ctrl, i)`. -/
def well_controls_iget_type (c : WellControls) (i : Nat) : WellControlType :=
  (c.controls.getD i dfltControl).kind

/-- `well_controls_iget_target(ctrl, i)`. -/
def well_controls_iget_target (c : WellControls) (i : Nat) : ℚ :=
  (c.controls.getD i dfltControl).target

/-- `well_controls_get_current_type(ctrl)` (`ctrl->type[ctrl->current]`). -/
def well_controls_get_current_type (c : WellControls) : WellControlType :=
  well_controls_iget_type c c.current

/-- `well_controls_get_current_target(ctrl)`. -/
def well_controls_get_current_target (c : WellControls) : ℚ :=
  well_controls_iget_target c c.current

/-- `well_controls_get_current_distr(ctrl)` (`ctrl->distr + np*ctrl->current`). -/
def well_controls_get_current_distr (c : WellControls) : Nat → ℚ :=
  (c.controls.getD c.current dfltControl).distr

/-- `INJECTOR` of `enum WellType` in `wells.h`. -/
def INJECTOR : Int := 0

/-- `PRODUCER` of `enum WellType` in `wells.h`. -/
def PRODUCER : Int := 1

/-- The `struct Wells` of `wells.h`, as read by `WellState::init`:
`number_of_wells`, `number_of_phases`, per-well type and controls, and the
CSR connection layout `well_connpos` / `well_cells` (well `w`'s connections
are `well_cells[well_connpos[w] .. well_connpos[w+1])`, so
`well_connpos[nw]` is the total connection count). -/
structure Wells where
  number_of_wells : Nat
  number_of_phases : Nat
  type : Nat → Int
  ctrls : Nat → WellControls
  well_connpos : Nat → Nat
  well_cells : Nat → Nat

/-- The six flat arrays of `Opm::WellState`. -/
structure WellState where
  bhp_ : List ℚ
  thp_ : List ℚ
  temperature_ : List ℚ
  wellrates_ : List ℚ
  perfrates_ : List ℚ
  perfpress_ : List ℚ
deriving DecidableEq, Repr

/-- A default-constructed `Opm::WellState`: all vectors empty. -/
def emptyWellState : WellState :=
  { bhp_ := [], thp_ := [], temperature_ := [], wellrates_ := [],
    perfrates_ := [], perfpress_ := [] }

/-- The loop `for (p = 0; p < n; ++p) l[start + p] = f p;`. -/
def setRange (l : List ℚ) (start : Nat) (f : Nat → ℚ) (n : Nat) : List ℚ :=
  (List.range n).foldl (fun l p => l.set (start + p) (f p)) l

/-- The body of the `for (i=0; i<num_controls; ++i)` scan (step 2 of the
open-well branch of `WellState::init`): record any BHP target into `bhp_[w]`
and any THP target into `thp_[w]`. -/
def scanStep (ctrl : WellControls) (w : Nat) (t : WellState) (i : Nat) : WellState :=
  match well_controls_iget_type ctrl i with
  | WellControlType.BHP =>
      { t with bhp_ := t.bhp_.set w (well_controls_iget_target ctrl i) }
  | WellControlType.THP =>
      { t with thp_ := t.thp_.set w (well_controls_iget_target ctrl i) }
  | _ => t

/-- The body of the `for (w = 0; w < nw; ++w)` loop of `WellState::init`,
acting on the state accumulated so far; `none` models the
`assert((wells->type[w] == INJECTOR) || (wells->type[w] == PRODUCER))`
firing. -/
def processWell (wells : Wells) (pressure : Nat → ℚ) (s : WellState)
    (w : Nat) : Option WellState :=
  if wells.type w = INJECTOR ∨ wells.type w = PRODUCER then
    let np := wells.number_of_phases
    let ctrl := wells.ctrls w
    some (if well_controls_well_is_stopped ctrl then
      -- Stopped well: 1. assign zero well rates.
      let s1 := { s with wellrates_ := setRange s.wellrates_ (np * w) (fun _ => 0) np }
      -- 2. bhp from BHP control / thp from THP control, else first-cell pressure.
      match well_controls_get_current_type ctrl with
      | WellControlType.BHP =>
          { s1 with bhp_ := s1.bhp_.set w (well_controls_get_current_target ctrl) }
      | WellControlType.THP =>
          { s1 with thp_ := s1.thp_.set w (well_controls_get_current_target ctrl) }
      | _ =>
          let first_cell := wells.well_cells (wells.well_connpos w)
          { s1 with bhp_ := s1.bhp_.set w (pressure first_cell),
                    thp_ := s1.thp_.set w (-10 ^ 100) }
    else
      -- Open well: 1. rates from SURFACE_RATE control, else small signed rate.
      let s1 :=
        if well_controls_get_current_type ctrl = WellControlType.SURFACE_RATE then
          let rate_target := well_controls_get_current_target ctrl
          let distr := well_controls_get_current_distr ctrl
          { s with wellrates_ := setRange s.wellrates_ (np * w)
                     (fun p => rate_target * distr p) np }
        else
          let small_rate : ℚ := 1 / 10 ^ 14
          let sign : ℚ := if wells.type w = INJECTOR then 1 else -1
          { s with wellrates_ := setRange s.wellrates_ (np * w)
                     (fun _ => small_rate * sign) np }
      -- 2. scan the whole control list for BHP/THP targets.
      let s2 := { s1 with thp_ := s1.thp_.set w (-10 ^ 100),
                          bhp_ := s1.bhp_.set w (-10 ^ 100) }
      let num_controls := well_controls_get_num ctrl
      let s3 := (List.range num_controls).foldl (scanStep ctrl w) s2
      -- 3. current control neither BHP nor THP: bhp from first-cell pressure.
      match well_controls_get_current_type ctrl with
      | WellControlType.BHP => s3
      | WellControlType.THP => s3
      | _ =>
          let first_cell := wells.well_cells (wells.well_connpos w)
          let safety_factor : ℚ := if wells.type w = INJECTOR then 101 / 100 else 99 / 100
          { s3 with bhp_ := s3.bhp_.set w (safety_factor * pressure first_cell) })
  else none

/-- `WellState::init(wells, state)` called on a default-constructed
`WellState`: `none` models an assertion failure, `some` the resulting
state.  A null `wells` pointer leaves all six vectors empty. -/
def init (wellsOpt : Option Wells) (pressure : Nat → ℚ) : Option WellState :=
  match wellsOpt with
  | none => some emptyWellState
  | some wells =>
      let nw := wells.number_of_wells
      let np := wells.number_of_phases
      let s0 : WellState :=
        { bhp_ := List.replicate nw 0,
          thp_ := List.replicate nw 0,
          temperature_ := List.replicate nw (27315 / 100 + 20),
          wellrates_ := List.replicate (nw * np) 0,
          perfrates_ := [], perfpress_ := [] }
      match (List.range nw).foldlM (processWell wells pressure) s0 with
      | none => none
      | some s =>
          some { s with
                   perfrates_ := List.replicate (wells.well_connpos nw) 0,
                   perfpress_ := List.replicate (wells.well_connpos nw) (-10 ^ 100) }

/-- `WellState::getRestartBhpOffset`. -/
def WellState.getRestartBhpOffset (_ : WellState) : Nat :=
  0

/-- `WellState::getRestartPerfPressOffset`. -/
def WellState.getRestartPerfPressOffset (s : WellState) : Nat :=
  s.bhp_.length

/-- `WellState::getRestartPerfRatesOffset`. -/
def WellState.getRestartPerfRatesOffset (s : WellState) : Nat :=
  s.getRestartPerfPressOffset + s.perfpress_.length

/-- `WellState::getRestartTemperatureOffset`. -/
def WellState.getRestartTemperatureOffset (s : WellState) : Nat :=
  s.getRestartPerfRatesOffset + s.perfrates_.length

/-- `WellState::getRestartWellRatesOffset`. -/
def WellState.getRestartWellRatesOffset (s : WellState) : Nat :=
  s.getRestartTemperatureOffset + s.temperature_.length

/-- Modelled from the spec: `extractColumn` of `ColumnExtract.hpp` is not
under `src/` (only its test driver is).  Spec §4.2: "group cells by (I,J);
within each group, order cells by increasing K", with the structured grid
`sx × sy × sz` numbering cells `i + j*sx + k*sx*sy`, so a cell `n` belongs
to the column of index `n % (sx*sy)` and the columns, indexed by
`c = i + j*sx`, list their cells in increasing cell-id (= increasing K)
order. -/
def extractColumn (sx sy sz : Nat) : List (List Nat) :=
  (List.range (sx * sy)).map
    (fun c => (List.range (sx * sy * sz)).filter (fun n => n % (sx * sy) = c))

/-- Value-level effect of `scanStep` on `bhp_[w]`. -/
def scanBhpStep (ctrl : WellControls) (b : ℚ) (i : Nat) : ℚ :=
  match well_controls_iget_type ctrl i with
  | WellControlType.BHP => well_controls_iget_target ctrl i
  | _ => b

/-- Value-level effect of `scanStep` on `thp_[w]`. -/
def scanThpStep (ctrl : WellControls) (t : ℚ) (i : Nat) : ℚ :=
  match well_controls_iget_type ctrl i with
  | WellControlType.THP => well_controls_iget_target ctrl i
  | _ => t

/-- The value `bhp_[w]` holds after the open-well control-list scan, when it
held `b` before the scan. -/
def scanBhp (ctrl : WellControls) (b : ℚ) : ℚ :=
  (List.range (well_controls_get_num ctrl)).foldl (scanBhpStep ctrl) b

/-- The value `thp_[w]` holds after the open-well control-list scan, when it
held `t` before the scan. -/
def scanThp (ctrl : WellControls) (t : ℚ) : ℚ :=
  (List.range (well_controls_get_num ctrl)).foldl (scanThpStep ctrl) t

/-- The value `init` leaves in `bhp_[w]` (proved below in
`processWell_spec` / `init_spec`; the stopped-THP branch relies on
`bhp_[w]` starting from its default-constructed value `0`). -/
def bhpVal (wells : Wells) (pressure : Nat → ℚ) (w : Nat) : ℚ :=
  let ctrl := wells.ctrls w
  if well_controls_well_is_stopped ctrl then
    match well_controls_get_current_type ctrl with
    | WellControlType.BHP => well_controls_get_current_target ctrl
    | WellControlType.THP => 0
    | _ => pressure (wells.well_cells (wells.well_connpos w))
  else
    match well_controls_get_current_type ctrl with
    | WellControlType.BHP => scanBhp ctrl (-10 ^ 100)
    | WellControlType.THP => scanBhp ctrl (-10 ^ 100)
    | _ =>
        (if wells.type w = INJECTOR then (101 : ℚ) / 100 else 99 / 100) *
          pressure (wells.well_cells (wells.well_connpos w))

/-- The value `init` leaves in `thp_[w]` (proved below). -/
def thpVal (wells : Wells) (w : Nat) : ℚ :=
  let ctrl := wells.ctrls w
  if well_controls_well_is_stopped ctrl then
    match well_controls_get_current_type ctrl with
    | WellControlType.BHP => 0
    | WellControlType.THP => well_controls_get_current_target ctrl
    | _ => -10 ^ 100
  else scanThp ctrl (-10 ^ 100)

/-- The value `init` leaves in `wellrates_[np*w + p]` (proved below). -/
def rateVal (wells : Wells) (w p : Nat) : ℚ :=
  let ctrl := wells.ctrls w
  if well_controls_well_is_stopped ctrl then 0
  else if well_controls_get_current_type ctrl = WellControlType.SURFACE_RATE then
    well_controls_get_current_target ctrl * well_controls_get_current_distr ctrl p
  else (1 / 10 ^ 14) * (if wells.type w = INJECTOR then 1 else -1)

/-! ## Concrete inputs used to witness the theorems -/

/-- A constant ambient pressure field. -/
def pres7 : Nat → ℚ := fun _ => 7

/-- A stopped well under a single BHP control with target 5000. -/
def ctrlStopBhp : WellControls :=
  { stopped := true, current := 0,
    controls := [{ kind := WellControlType.BHP, target := 5000, distr := fun _ => 0 }] }

/-- One stopped producer under BHP control (the spec's stopped-producer
scenario). -/
def wellsStopBhp : Wells :=
  { number_of_wells := 1, number_of_phases := 2, type := fun _ => PRODUCER,
    ctrls := fun _ => ctrlStopBhp, well_connpos := fun w => w,
    well_cells := fun _ => 0 }

/-- The state `init` produces for `wellsStopBhp`. -/
def stateStopBhp : WellState :=
  (init (some wellsStopBhp) pres7).getD emptyWellState

/-- An open well under a single SurfaceRate control, target 100,
distribution (3/10, 7/10). -/
def ctrlSurf : WellControls :=
  { stopped := false, current := 0,
    controls := [{ kind := WellControlType.SURFACE_RATE, target := 100,
                   distr := fun p => if p = 0 then 3 / 10 else 7 / 10 }] }

/-- One open two-phase injector under SurfaceRate control (the spec's
injector scenario). -/
def wellsSurfInj : Wells :=
  { number_of_wells := 1, number_of_phases := 2, type := fun _ => INJECTOR,
    ctrls := fun _ => ctrlSurf, well_connpos := fun w => w,
    well_cells := fun _ => 0 }

/-- The state `init` produces for `wellsSurfInj`. -/
def stateSurfInj : WellState :=
  (init (some wellsSurfInj) pres7).getD emptyWellState

/-- An open well under a single ReservoirRate control (current control
neither BHP, THP nor SurfaceRate). -/
def ctrlRes : WellControls :=
  { stopped := false, current := 0,
    controls := [{ kind := WellControlType.RESERVOIR_RATE, target := 50,
                   distr := fun _ => 1 }] }

/-- One open single-phase injector under ReservoirRate control. -/
def wellsResInj : Wells :=
  { number_of_wells := 1, number_of_phases := 1, type := fun _ => INJECTOR,
    ctrls := fun _ => ctrlRes, well_connpos := fun w => w,
    well_cells := fun _ => 0 }

/-- The state `init` produces for `wellsResInj`. -/
def stateResInj : WellState :=
  (init (some wellsResInj) pres7).getD emptyWellState

/-- A stopped well under a single SurfaceRate control. -/
def ctrlStopSurf : WellControls :=
  { stopped := true, current := 0,
    controls := [{ kind := WellControlType.SURFACE_RATE, target := 100,
                   distr := fun _ => 1 }] }

/-- One stopped single-phase producer whose current control is neither BHP
nor THP. -/
def wellsStopSurf : Wells :=
  { number_of_wells := 1, number_of_phases := 1, type := fun _ => PRODUCER,
    ctrls := fun _ => ctrlStopSurf, well_connpos := fun w => w,
    well_cells := fun _ => 0 }

/-- The state `init` produces for `wellsStopSurf`. -/
def stateStopSurf : WellState :=
  (init (some wellsStopSurf) pres7).getD emptyWellState

/-- One open well with ZERO connections (`well_connpos` is constantly 0)
whose current control is SurfaceRate, so the open-well default branch
performs the first-connection lookup `well_cells[well_connpos[0]]`. -/
def wellsNoConn : Wells :=
  { number_of_wells := 1, number_of_phases := 1, type := fun _ => INJECTOR,
    ctrls := fun _ => ctrlSurf, well_connpos := fun _ => 0,
    well_cells := fun _ => 5 }

/-! ## Basic list lemmas -/

theorem getD_set_self {α : Type} (l : List α) (i : Nat) (a d : α)
    (h : i < l.length) : (l.set i a).getD i d = a := by
  rw [List.getD_eq_getElem _ _ (by simpa using h)]
  simp [List.getElem_set, h]

theorem getD_set_ne {α : Type} (l : List α) {i j : Nat} (a d : α)
    (h : i ≠ j) : (l.set i a).getD j d = l.getD j d := by
  simp [List.getD, List.getElem?_set, h]

theorem getD_replicate {α : Type} (n : Nat) (a d : α) (i : Nat) :
    (List.replicate n a).getD i d = if i < n then a else d := by
  by_cases h : i < n
  · rw [List.getD_eq_getElem _ _ (by simpa using h)]
    simp [h]
  · rw [List.getD_eq_default _ _ (by simpa using Nat.le_of_not_lt h)]
    simp [h]

theorem setRange_zero (l : List ℚ) (start : Nat) (f : Nat → ℚ) :
    setRange l start f 0 = l :=
  rfl

theorem setRange_succ (l : List ℚ) (start : Nat) (f : Nat → ℚ) (n : Nat) :
    setRange l start f (n + 1) = (setRange l start f n).set (start + n) (f n) := by
  unfold setRange
  rw [List.range_succ, List.foldl_append]
  rfl

theorem length_setRange (l : List ℚ) (start : Nat) (f : Nat → ℚ) (n : Nat) :
    (setRange l start f n).length = l.length := by
  induction n with
  | zero => rfl
  | succ n ih => rw [setRange_succ, List.length_set, ih]

theorem getD_setRange_of_notin (l : List ℚ) (start : Nat) (f : Nat → ℚ) (n : Nat)
    {j : Nat} (d : ℚ) (h : j < start ∨ start + n ≤ j) :
    (setRange l start f n).getD j d = l.getD j d := by
  induction n with
  | zero => rfl
  | succ n ih =>
      rw [setRange_succ, getD_set_ne _ _ _ (by omega), ih (by omega)]

theorem getD_setRange_mem (l : List ℚ) (start : Nat) (f : Nat → ℚ) (n : Nat)
    {p : Nat} (d : ℚ) (hp : p < n) (hlen : start + p < l.length) :
    (setRange l start f n).getD (start + p) d = f p := by
  induction n with
  | zero => omega
  | succ n ih =>
      rw [setRange_succ]
      by_cases hpn : p = n
      · subst hpn
        exact getD_set_self _ _ _ _ (by rw [length_setRange]; exact hlen)
      · rw [getD_set_ne _ _ _ (by omega)]
        exact ih (by omega)

/-! ## The open-well control-list scan -/

theorem scanStep_cases (ctrl : WellControls) (w : Nat) (t : WellState) (i : Nat) :
    scanStep ctrl w t i
      = { t with bhp_ := t.bhp_.set w (well_controls_iget_target ctrl i) } ∧
        well_controls_iget_type ctrl i = WellControlType.BHP ∨
    scanStep ctrl w t i
      = { t with thp_ := t.thp_.set w (well_controls_iget_target ctrl i) } ∧
        well_controls_iget_type ctrl i = WellControlType.THP ∨
    scanStep ctrl w t i = t ∧ well_controls_iget_type ctrl i ≠ WellControlType.BHP ∧
        well_controls_iget_type ctrl i ≠ WellControlType.THP := by
  unfold scanStep
  cases hk : well_controls_iget_type ctrl i <;> simp

theorem scanFold_static (ctrl : WellControls) (w : Nat) (is : List Nat) :
    ∀ t : WellState,
      (is.foldl (scanStep ctrl w) t).bhp_.length = t.bhp_.length ∧
      (is.foldl (scanStep ctrl w) t).thp_.length = t.thp_.length ∧
      (is.foldl (scanStep ctrl w) t).temperature_ = t.temperature_ ∧
      (is.foldl (scanStep ctrl w) t).wellrates_ = t.wellrates_ ∧
      (is.foldl (scanStep ctrl w) t).perfrates_ = t.perfrates_ ∧
      (is.foldl (scanStep ctrl w) t).perfpress_ = t.perfpress_ := by
  induction is with
  | nil => intro t; exact ⟨rfl, rfl, rfl, rfl, rfl, rfl⟩
  | cons i is ih =>
      intro t
      rw [List.foldl_cons]
      obtain ⟨h1, h2, h3, h4, h5, h6⟩ := ih (scanStep ctrl w t i)
      rcases scanStep_cases ctrl w t i with ⟨hs, -⟩ | ⟨hs, -⟩ | ⟨hs, -, -⟩
      · rw [hs] at h1 h2 h3 h4 h5 h6 ⊢
        simp only [List.length_set] at h1
        exact ⟨h1, h2, h3, h4, h5, h6⟩
      · rw [hs] at h1 h2 h3 h4 h5 h6 ⊢
        simp only [List.length_set] at h2
        exact ⟨h1, h2, h3, h4, h5, h6⟩
      · rw [hs] at h1 h2 h3 h4 h5 h6 ⊢
        exact ⟨h1, h2, h3, h4, h5, h6⟩

theorem scanFold_bhp (ctrl : WellControls) (w : Nat) (is : List Nat) :
    ∀ t : WellState, w < t.bhp_.length →
      (is.foldl (scanStep ctrl w) t).bhp_.getD w 0
        = is.foldl (scanBhpStep ctrl) (t.bhp_.getD w 0) := by
  induction is with
  | nil => intro t _; rfl
  | cons i is ih =>
      intro t hw
      rw [List.foldl_cons, List.foldl_cons]
      rcases scanStep_cases ctrl w t i with ⟨hs, hk⟩ | ⟨hs, hk⟩ | ⟨hs, hk1, hk2⟩
      · rw [hs, ih _ (by simpa using hw)]
        rw [getD_set_self _ _ _ _ hw]
        unfold scanBhpStep
        rw [hk]
      · rw [hs, ih _ (by simpa using hw)]
        unfold scanBhpStep
        rw [hk]
      · rw [hs, ih _ hw]
        unfold scanBhpStep
        cases hk : well_controls_iget_type ctrl i <;> simp_all

theorem scanFold_thp (ctrl : WellControls) (w : Nat) (is : List Nat) :
    ∀ t : WellState, w < t.thp_.length →
      (is.foldl (scanStep ctrl w) t).thp_.getD w 0
        = is.foldl (scanThpStep ctrl) (t.thp_.getD w 0) := by
  induction is with
  | nil => intro t _; rfl
  | cons i is ih =>
      intro t hw
      rw [List.foldl_cons, List.foldl_cons]
      rcases scanStep_cases ctrl w t i with ⟨hs, hk⟩ | ⟨hs, hk⟩ | ⟨hs, hk1, hk2⟩
      · rw [hs, ih _ (by simpa using hw)]
        unfold scanThpStep
        rw [hk]
      · rw [hs, ih _ (by simpa using hw)]
        rw [getD_set_self _ _ _ _ hw]
        unfold scanThpStep
        rw [hk]
      · rw [hs, ih _ hw]
        unfold scanThpStep
        cases hk : well_controls_iget_type ctrl i <;> simp_all

theorem scanFold_frame (ctrl : WellControls) (w : Nat) (is : List Nat) :
    ∀ t : WellState, ∀ v, v ≠ w →
      (is.foldl (scanStep ctrl w) t).bhp_.getD v 0 = t.bhp_.getD v 0 ∧
      (is.foldl (scanStep ctrl w) t).thp_.getD v 0 = t.thp_.getD v 0 := by
  induction is with
  | nil => intro t v _; exact ⟨rfl, rfl⟩
  | cons i is ih =>
      intro t v hv
      rw [List.foldl_cons]
      obtain ⟨h1, h2⟩ := ih (scanStep ctrl w t i) v hv
      rcases scanStep_cases ctrl w t i with ⟨hs, -⟩ | ⟨hs, -⟩ | ⟨hs, -, -⟩
      · rw [hs] at h1 h2 ⊢
        rw [getD_set_ne _ _ _ (Ne.symm hv)] at h1
        exact ⟨h1, h2⟩
      · rw [hs] at h1 h2 ⊢
        rw [getD_set_ne _ _ _ (Ne.symm hv)] at h2
        exact ⟨h1, h2⟩
      · rw [hs] at h1 h2 ⊢
        exact ⟨h1, h2⟩

theorem foldl_scanBhpStep_of_no_bhp (ctrl : WellControls) (is : List Nat)
    (h : ∀ i ∈ is, well_controls_iget_type ctrl i ≠ WellControlType.BHP) :
    ∀ b : ℚ, is.foldl (scanBhpStep ctrl) b = b := by
  induction is with
  | nil => intro b; rfl
  | cons i is ih =>
      intro b
      rw [List.foldl_cons]
      have hi := h i (by simp)
      have hstep : scanBhpStep ctrl b i = b := by
        unfold scanBhpStep
        cases hk : well_controls_iget_type ctrl i
        · exact absurd hk hi
        · rfl
        · rfl
        · rfl
      rw [hstep]
      exact ih (fun j hj => h j (by simp [hj])) b

/-- If the control list holds exactly one BHP-kind control, at index
`current`, the open-well scan leaves its target in `bhp_[w]` whatever value
the scan started from. -/
theorem scanBhp_unique (ctrl : WellControls)
    (hcur : ctrl.current < well_controls_get_num ctrl)
    (hk : well_controls_get_current_type ctrl = WellControlType.BHP)
    (hu : ∀ i < well_controls_get_num ctrl, i ≠ ctrl.current →
      well_controls_iget_type ctrl i ≠ WellControlType.BHP)
    (b : ℚ) : scanBhp ctrl b = well_controls_get_current_target ctrl := by
  unfold scanBhp
  have hsplit : List.range (well_controls_get_num ctrl)
      = List.range (ctrl.current + 1)
        ++ (List.range (well_controls_get_num ctrl - (ctrl.current + 1))).map
             ((ctrl.current + 1) + ·) := by
    rw [← List.range_add]
    congr 1
    omega
  rw [hsplit, List.foldl_append, List.range_succ, List.foldl_append]
  have hstep : ∀ b' : ℚ, [ctrl.current].foldl (scanBhpStep ctrl) b'
      = well_controls_get_current_target ctrl := by
    intro b'
    show scanBhpStep ctrl b' ctrl.current = _
    unfold scanBhpStep
    unfold well_controls_get_current_type at hk
    rw [hk]
    rfl
  rw [hstep]
  apply foldl_scanBhpStep_of_no_bhp
  intro i hi
  obtain ⟨j, hj, rfl⟩ := List.mem_map.mp hi
  have hj' := List.mem_range.mp hj
  exact hu _ (by omega) (by omega)

/-! ## Branch equations for `processWell` -/

theorem processWell_stopped_bhp (wells : Wells) (pressure : Nat → ℚ)
    (s : WellState) (w : Nat)
    (hty : wells.type w = INJECTOR ∨ wells.type w = PRODUCER)
    (hstop : well_controls_well_is_stopped (wells.ctrls w) = true)
    (hk : well_controls_get_current_type (wells.ctrls w) = WellControlType.BHP) :
    processWell wells pressure s w
      = some { s with
          wellrates_ := setRange s.wellrates_ (wells.number_of_phases * w)
            (fun _ => 0) wells.number_of_phases,
          bhp_ := s.bhp_.set w (well_controls_get_current_target (wells.ctrls w)) } := by
  unfold processWell
  rw [if_pos hty]
  dsimp only
  rw [if_pos hstop, hk]

theorem processWell_stopped_thp (wells : Wells) (pressure : Nat → ℚ)
    (s : WellState) (w : Nat)
    (hty : wells.type w = INJECTOR ∨ wells.type w = PRODUCER)
    (hstop : well_controls_well_is_stopped (wells.ctrls w) = true)
    (hk : well_controls_get_current_type (wells.ctrls w) = WellControlType.THP) :
    processWell wells pressure s w
      = some { s with
          wellrates_ := setRange s.wellrates_ (wells.number_of_phases * w)
            (fun _ => 0) wells.number_of_phases,
          thp_ := s.thp_.set w (well_controls_get_current_target (wells.ctrls w)) } := by
  unfold processWell
  rw [if_pos hty]
  dsimp only
  rw [if_pos hstop, hk]

theorem processWell_stopped_default (wells : Wells) (pressure : Nat → ℚ)
    (s : WellState) (w : Nat)
    (hty : wells.type w = INJECTOR ∨ wells.type w = PRODUCER)
    (hstop : well_controls_well_is_stopped (wells.ctrls w) = true)
    (hk1 : well_controls_get_current_type (wells.ctrls w) ≠ WellControlType.BHP)
    (hk2 : well_controls_get_current_type (wells.ctrls w) ≠ WellControlType.THP) :
    processWell wells pressure s w
      = some { s with
          wellrates_ := setRange s.wellrates_ (wells.number_of_phases * w)
            (fun _ => 0) wells.number_of_phases,
          bhp_ := s.bhp_.set w (pressure (wells.well_cells (wells.well_connpos w))),
          thp_ := s.thp_.set w (-10 ^ 100) } := by
  unfold processWell
  rw [if_pos hty]
  dsimp only
  rw [if_pos hstop]
  cases hk : well_controls_get_current_type (wells.ctrls w)
  · exact absurd hk hk1
  · exact absurd hk hk2
  · rfl
  · rfl

theorem processWell_open_surface (wells : Wells) (pressure : Nat → ℚ)
    (s : WellState) (w : Nat)
    (hty : wells.type w = INJECTOR ∨ wells.type w = PRODUCER)
    (hstop : well_controls_well_is_stopped (wells.ctrls w) = false)
    (hk : well_controls_get_current_type (wells.ctrls w) = WellControlType.SURFACE_RATE) :
    ∀ t2 t3 : WellState,
      t2 = { s with
              wellrates_ := setRange s.wellrates_ (wells.number_of_phases * w)
                (fun p => well_controls_get_current_target (wells.ctrls w) *
                  well_controls_get_current_distr (wells.ctrls w) p)
                wells.number_of_phases,
              thp_ := s.thp_.set w (-10 ^ 100),
              bhp_ := s.bhp_.set w (-10 ^ 100) } →
      t3 = (List.range (well_controls_get_num (wells.ctrls w))).foldl
             (scanStep (wells.ctrls w) w) t2 →
      ∀ q : ℚ,
      q = (if wells.type w = INJECTOR then (101 : ℚ) / 100 else 99 / 100) *
            pressure (wells.well_cells (wells.well_connpos w)) →
      processWell wells pressure s w
        = some { t3 with bhp_ := t3.bhp_.set w q } := by
  intro t2 t3 h2 h3 q hq
  subst hq
  subst h3
  subst h2
  unfold processWell
  rw [if_pos hty]
  dsimp only
  rw [if_neg (by simp [hstop]), hk, if_pos rfl]

theorem processWell_open_reservoir (wells : Wells) (pressure : Nat → ℚ)
    (s : WellState) (w : Nat)
    (hty : wells.type w = INJECTOR ∨ wells.type w = PRODUCER)
    (hstop : well_controls_well_is_stopped (wells.ctrls w) = false)
    (hk : well_controls_get_current_type (wells.ctrls w) = WellControlType.RESERVOIR_RATE) :
    ∀ t2 t3 : WellState,
      t2 = { s with
              wellrates_ := setRange s.wellrates_ (wells.number_of_phases * w)
                (fun _ => (1 / 10 ^ 14 : ℚ) *
                  (if wells.type w = INJECTOR then 1 else -1))
                wells.number_of_phases,
              thp_ := s.thp_.set w (-10 ^ 100),
              bhp_ := s.bhp_.set w (-10 ^ 100) } →
      t3 = (List.range (well_controls_get_num (wells.ctrls w))).foldl
             (scanStep (wells.ctrls w) w) t2 →
      ∀ q : ℚ,
      q = (if wells.type w = INJECTOR then (101 : ℚ) / 100 else 99 / 100) *
            pressure (wells.well_cells (wells.well_connpos w)) →
      processWell wells pressure s w
        = some { t3 with bhp_ := t3.bhp_.set w q } := by
  intro t2 t3 h2 h3 q hq
  subst hq
  subst h3
  subst h2
  unfold processWell
  rw [if_pos hty]
  dsimp only
  rw [if_neg (by simp [hstop]), hk, if_neg (by simp)]

theorem processWell_open_bhp (wells : Wells) (pressure : Nat → ℚ)
    (s : WellState) (w : Nat)
    (hty : wells.type w = INJECTOR ∨ wells.type w = PRODUCER)
    (hstop : well_controls_well_is_stopped (wells.ctrls w) = false)
    (hk : well_controls_get_current_type (wells.ctrls w) = WellControlType.BHP) :
    ∀ t2 : WellState,
      t2 = { s with
              wellrates_ := setRange s.wellrates_ (wells.number_of_phases * w)
                (fun _ => (1 / 10 ^ 14 : ℚ) *
                  (if wells.type w = INJECTOR then 1 else -1))
                wells.number_of_phases,
              thp_ := s.thp_.set w (-10 ^ 100),
              bhp_ := s.bhp_.set w (-10 ^ 100) } →
      processWell wells pressure s w
        = some ((List.range (well_controls_get_num (wells.ctrls w))).foldl
             (scanStep (wells.ctrls w) w) t2) := by
  intro t2 h2
  subst h2
  unfold processWell
  rw [if_pos hty]
  dsimp only
  rw [if_neg (by simp [hstop]), hk, if_neg (by simp)]

theorem processWell_open_thp (wells : Wells) (pressure : Nat → ℚ)
    (s : WellState) (w : Nat)
    (hty : wells.type w = INJECTOR ∨ wells.type w = PRODUCER)
    (hstop : well_controls_well_is_stopped (wells.ctrls w) = false)
    (hk : well_controls_get_current_type (wells.ctrls w) = WellControlType.THP) :
    ∀ t2 : WellState,
      t2 = { s with
              wellrates_ := setRange s.wellrates_ (wells.number_of_phases * w)
                (fun _ => (1 / 10 ^ 14 : ℚ) *
                  (if wells.type w = INJECTOR then 1 else -1))
                wells.number_of_phases,
              thp_ := s.thp_.set w (-10 ^ 100),
              bhp_ := s.bhp_.set w (-10 ^ 100) } →
      processWell wells pressure s w
        = some ((List.range (well_controls_get_num (wells.ctrls w))).foldl
             (scanStep (wells.ctrls w) w) t2) := by
  intro t2 h2
  subst h2
  unfold processWell
  rw [if_pos hty]
  dsimp only
  rw [if_neg (by simp [hstop]), hk, if_neg (by simp)]

/-- Per-well characterization of the loop body: on a state whose `bhp_[w]`
and `thp_[w]` still hold their default-constructed value `0`, `processWell`
succeeds (given a valid well type), writes `bhpVal` / `thpVal` /
`rateVal` into well `w`'s slots and touches nothing else. -/
theorem processWell_spec (wells : Wells) (pressure : Nat → ℚ) (s : WellState) (w : Nat)
    (hty : wells.type w = INJECTOR ∨ wells.type w = PRODUCER)
    (hw : w < wells.number_of_wells)
    (hlb : s.bhp_.length = wells.number_of_wells)
    (hlt : s.thp_.length = wells.number_of_wells)
    (hlr : s.wellrates_.length = wells.number_of_wells * wells.number_of_phases)
    (h0b : s.bhp_.getD w 0 = 0)
    (h0t : s.thp_.getD w 0 = 0) :
    ∃ s' : WellState, processWell wells pressure s w = some s' ∧
      s'.bhp_.length = s.bhp_.length ∧
      s'.thp_.length = s.thp_.length ∧
      s'.wellrates_.length = s.wellrates_.length ∧
      s'.temperature_ = s.temperature_ ∧
      s'.perfrates_ = s.perfrates_ ∧
      s'.perfpress_ = s.perfpress_ ∧
      s'.bhp_.getD w 0 = bhpVal wells pressure w ∧
      s'.thp_.getD w 0 = thpVal wells w ∧
      (∀ p, p < wells.number_of_phases →
        s'.wellrates_.getD (wells.number_of_phases * w + p) 0 = rateVal wells w p) ∧
      (∀ v, v ≠ w → s'.bhp_.getD v 0 = s.bhp_.getD v 0 ∧ s'.thp_.getD v 0 = s.thp_.getD v 0) ∧
      (∀ j, j < wells.number_of_phases * w ∨
            wells.number_of_phases * w + wells.number_of_phases ≤ j →
        s'.wellrates_.getD j 0 = s.wellrates_.getD j 0) := by
  have hwb : w < s.bhp_.length := by rw [hlb]; exact hw
  have hwt : w < s.thp_.length := by rw [hlt]; exact hw
  have hrates : wells.number_of_phases * w + wells.number_of_phases
      ≤ s.wellrates_.length := by
    have h1 : wells.number_of_phases * (w + 1)
        ≤ wells.number_of_phases * wells.number_of_wells :=
      Nat.mul_le_mul_left _ hw
    have h2 : wells.number_of_phases * w + wells.number_of_phases
        = wells.number_of_phases * (w + 1) := by ring
    have h3 : wells.number_of_phases * wells.number_of_wells
        = wells.number_of_wells * wells.number_of_phases := Nat.mul_comm _ _
    omega
  cases hstop : well_controls_well_is_stopped (wells.ctrls w) with
  | true =>
      cases hk : well_controls_get_current_type (wells.ctrls w) with
      | BHP =>
          refine ⟨_, processWell_stopped_bhp wells pressure s w hty hstop hk,
            ?_, rfl, ?_, rfl, rfl, rfl, ?_, ?_, ?_, ?_, ?_⟩
          · simp
          · exact length_setRange _ _ _ _
          · rw [getD_set_self _ _ _ _ hwb]
            simp [bhpVal, hstop, hk]
          · rw [h0t]
            simp [thpVal, hstop, hk]
          · intro p hp
            rw [getD_setRange_mem _ _ _ _ _ hp (by omega)]
            simp [rateVal, hstop]
          · intro v hv
            exact ⟨getD_set_ne _ _ _ (Ne.symm hv), rfl⟩
          · intro j hj
            exact getD_setRange_of_notin _ _ _ _ _ hj
      | THP =>
          refine ⟨_, processWell_stopped_thp wells pressure s w hty hstop hk,
            rfl, ?_, ?_, rfl, rfl, rfl, ?_, ?_, ?_, ?_, ?_⟩
          · simp
          · exact length_setRange _ _ _ _
          · rw [h0b]
            simp [bhpVal, hstop, hk]
          · rw [getD_set_self _ _ _ _ hwt]
            simp [thpVal, hstop, hk]
          · intro p hp
            rw [getD_setRange_mem _ _ _ _ _ hp (by omega)]
            simp [rateVal, hstop]
          · intro v hv
            exact ⟨rfl, getD_set_ne _ _ _ (Ne.symm hv)⟩
          · intro j hj
            exact getD_setRange_of_notin _ _ _ _ _ hj
      | RESERVOIR_RATE =>
          refine ⟨_, processWell_stopped_default wells pressure s w hty hstop
            (by rw [hk]; intro h; exact absurd h (by decide))
            (by rw [hk]; intro h; exact absurd h (by decide)),
            ?_, ?_, ?_, rfl, rfl, rfl, ?_, ?_, ?_, ?_, ?_⟩
          · simp
          · simp
          · exact length_setRange _ _ _ _
          · rw [getD_set_self _ _ _ _ hwb]
            simp [bhpVal, hstop, hk]
          · rw [getD_set_self _ _ _ _ hwt]
            simp [thpVal, hstop, hk]
          · intro p hp
            rw [getD_setRange_mem _ _ _ _ _ hp (by omega)]
            simp [rateVal, hstop]
          · intro v hv
            exact ⟨getD_set_ne _ _ _ (Ne.symm hv), getD_set_ne _ _ _ (Ne.symm hv)⟩
          · intro j hj
            exact getD_setRange_of_notin _ _ _ _ _ hj
      | SURFACE_RATE =>
          refine ⟨_, processWell_stopped_default wells pressure s w hty hstop
            (by rw [hk]; intro h; exact absurd h (by decide))
            (by rw [hk]; intro h; exact absurd h (by decide)),
            ?_, ?_, ?_, rfl, rfl, rfl, ?_, ?_, ?_, ?_, ?_⟩
          · simp
          · simp
          · exact length_setRange _ _ _ _
          · rw [getD_set_self _ _ _ _ hwb]
            simp [bhpVal, hstop, hk]
          · rw [getD_set_self _ _ _ _ hwt]
            simp [thpVal, hstop, hk]
          · intro p hp
            rw [getD_setRange_mem _ _ _ _ _ hp (by omega)]
            simp [rateVal, hstop]
          · intro v hv
            exact ⟨getD_set_ne _ _ _ (Ne.symm hv), getD_set_ne _ _ _ (Ne.symm hv)⟩
          · intro j hj
            exact getD_setRange_of_notin _ _ _ _ _ hj
  | false =>
      cases hk : well_controls_get_current_type (wells.ctrls w) with
      | BHP =>
          set t2 : WellState := { s with
            wellrates_ := setRange s.wellrates_ (wells.number_of_phases * w)
              (fun _ => (1 / 10 ^ 14 : ℚ) *
                (if wells.type w = INJECTOR then 1 else -1))
              wells.number_of_phases,
            thp_ := s.thp_.set w (-10 ^ 100),
            bhp_ := s.bhp_.set w (-10 ^ 100) } with ht2
          have hb2 : t2.bhp_ = s.bhp_.set w (-10 ^ 100) := by rw [ht2]
          have hth2 : t2.thp_ = s.thp_.set w (-10 ^ 100) := by rw [ht2]
          have hr2 : t2.wellrates_ = setRange s.wellrates_ (wells.number_of_phases * w)
              (fun _ => (1 / 10 ^ 14 : ℚ) *
                (if wells.type w = INJECTOR then 1 else -1))
              wells.number_of_phases := by rw [ht2]
          have hte2 : t2.temperature_ = s.temperature_ := by rw [ht2]
          have hpr2 : t2.perfrates_ = s.perfrates_ := by rw [ht2]
          have hpp2 : t2.perfpress_ = s.perfpress_ := by rw [ht2]
          have hw2b : w < t2.bhp_.length := by
            rw [hb2]
            simpa using hwb
          have hw2t : w < t2.thp_.length := by
            rw [hth2]
            simpa using hwt
          obtain ⟨l1, l2, l3, l4, l5, l6⟩ := scanFold_static (wells.ctrls w) w
            (List.range (well_controls_get_num (wells.ctrls w))) t2
          refine ⟨_, processWell_open_bhp wells pressure s w hty hstop hk t2 ht2,
            ?_, ?_, ?_, ?_, ?_, ?_, ?_, ?_, ?_, ?_, ?_⟩
          · rw [l1, hb2]
            simp
          · rw [l2, hth2]
            simp
          · rw [l4, hr2]
            exact length_setRange _ _ _ _
          · rw [l3, hte2]
          · rw [l5, hpr2]
          · rw [l6, hpp2]
          · rw [scanFold_bhp _ _ _ t2 hw2b]
            have hinit : t2.bhp_.getD w 0 = -10 ^ 100 := by
              rw [hb2]
              exact getD_set_self _ _ _ _ hwb
            rw [hinit]
            simp [bhpVal, hstop, hk, scanBhp]
          · rw [scanFold_thp _ _ _ t2 hw2t]
            have hinit : t2.thp_.getD w 0 = -10 ^ 100 := by
              rw [hth2]
              exact getD_set_self _ _ _ _ hwt
            rw [hinit]
            simp [thpVal, hstop, scanThp]
          · intro p hp
            rw [l4, hr2, getD_setRange_mem _ _ _ _ _ hp (by omega)]
            simp [rateVal, hstop, hk]
          · intro v hv
            obtain ⟨f1, f2⟩ := scanFold_frame (wells.ctrls w) w
              (List.range (well_controls_get_num (wells.ctrls w))) t2 v hv
            constructor
            · rw [f1, hb2, getD_set_ne _ _ _ (Ne.symm hv)]
            · rw [f2, hth2, getD_set_ne _ _ _ (Ne.symm hv)]
          · intro j hj
            rw [l4, hr2]
            exact getD_setRange_of_notin _ _ _ _ _ hj
      | THP =>
          set t2 : WellState := { s with
            wellrates_ := setRange s.wellrates_ (wells.number_of_phases * w)
              (fun _ => (1 / 10 ^ 14 : ℚ) *
                (if wells.type w = INJECTOR then 1 else -1))
              wells.number_of_phases,
            thp_ := s.thp_.set w (-10 ^ 100),
            bhp_ := s.bhp_.set w (-10 ^ 100) } with ht2
          have hb2 : t2.bhp_ = s.bhp_.set w (-10 ^ 100) := by rw [ht2]
          have hth2 : t2.thp_ = s.thp_.set w (-10 ^ 100) := by rw [ht2]
          have hr2 : t2.wellrates_ = setRange s.wellrates_ (wells.number_of_phases * w)
              (fun _ => (1 / 10 ^ 14 : ℚ) *
                (if wells.type w = INJECTOR then 1 else -1))
              wells.number_of_phases := by rw [ht2]
          have hte2 : t2.temperature_ = s.temperature_ := by rw [ht2]
          have hpr2 : t2.perfrates_ = s.perfrates_ := by rw [ht2]
          have hpp2 : t2.perfpress_ = s.perfpress_ := by rw [ht2]
          have hw2b : w < t2.bhp_.length := by
            rw [hb2]
            simpa using hwb
          have hw2t : w < t2.thp_.length := by
            rw [hth2]
            simpa using hwt
          obtain ⟨l1, l2, l3, l4, l5, l6⟩ := scanFold_static (wells.ctrls w) w
            (List.range (well_controls_get_num (wells.ctrls w))) t2
          refine ⟨_, processWell_open_thp wells pressure s w hty hstop hk t2 ht2,
            ?_, ?_, ?_, ?_, ?_, ?_, ?_, ?_, ?_, ?_, ?_⟩
          · rw [l1, hb2]
            simp
          · rw [l2, hth2]
            simp
          · rw [l4, hr2]
            exact length_setRange _ _ _ _
          · rw [l3, hte2]
          · rw [l5, hpr2]
          · rw [l6, hpp2]
          · rw [scanFold_bhp _ _ _ t2 hw2b]
            have hinit : t2.bhp_.getD w 0 = -10 ^ 100 := by
              rw [hb2]
              exact getD_set_self _ _ _ _ hwb
            rw [hinit]
            simp [bhpVal, hstop, hk, scanBhp]
          · rw [scanFold_thp _ _ _ t2 hw2t]
            have hinit : t2.thp_.getD w 0 = -10 ^ 100 := by
              rw [hth2]
              exact getD_set_self _ _ _ _ hwt
            rw [hinit]
            simp [thpVal, hstop, scanThp]
          · intro p hp
            rw [l4, hr2, getD_setRange_mem _ _ _ _ _ hp (by omega)]
            simp [rateVal, hstop, hk]
          · intro v hv
            obtain ⟨f1, f2⟩ := scanFold_frame (wells.ctrls w) w
              (List.range (well_controls_get_num (wells.ctrls w))) t2 v hv
            constructor
            · rw [f1, hb2, getD_set_ne _ _ _ (Ne.symm hv)]
            · rw [f2, hth2, getD_set_ne _ _ _ (Ne.symm hv)]
          · intro j hj
            rw [l4, hr2]
            exact getD_setRange_of_notin _ _ _ _ _ hj
      | RESERVOIR_RATE =>
          set t2 : WellState := { s with
            wellrates_ := setRange s.wellrates_ (wells.number_of_phases * w)
              (fun _ => (1 / 10 ^ 14 : ℚ) *
                (if wells.type w = INJECTOR then 1 else -1))
              wells.number_of_phases,
            thp_ := s.thp_.set w (-10 ^ 100),
            bhp_ := s.bhp_.set w (-10 ^ 100) } with ht2
          have hb2 : t2.bhp_ = s.bhp_.set w (-10 ^ 100) := by rw [ht2]
          have hth2 : t2.thp_ = s.thp_.set w (-10 ^ 100) := by rw [ht2]
          have hr2 : t2.wellrates_ = setRange s.wellrates_ (wells.number_of_phases * w)
              (fun _ => (1 / 10 ^ 14 : ℚ) *
                (if wells.type w = INJECTOR then 1 else -1))
              wells.number_of_phases := by rw [ht2]
          have hte2 : t2.temperature_ = s.temperature_ := by rw [ht2]
          have hpr2 : t2.perfrates_ = s.perfrates_ := by rw [ht2]
          have hpp2 : t2.perfpress_ = s.perfpress_ := by rw [ht2]
          have hw2b : w < t2.bhp_.length := by
            rw [hb2]
            simpa using hwb
          have hw2t : w < t2.thp_.length := by
            rw [hth2]
            simpa using hwt
          obtain ⟨l1, l2, l3, l4, l5, l6⟩ := scanFold_static (wells.ctrls w) w
            (List.range (well_controls_get_num (wells.ctrls w))) t2
          have hw3b : w < ((List.range (well_controls_get_num (wells.ctrls w))).foldl
              (scanStep (wells.ctrls w) w) t2).bhp_.length := by
            rw [l1]
            exact hw2b
          refine ⟨_, processWell_open_reservoir wells pressure s w hty hstop hk t2
            ((List.range (well_controls_get_num (wells.ctrls w))).foldl
              (scanStep (wells.ctrls w) w) t2) ht2 rfl _ rfl,
            ?_, ?_, ?_, ?_, ?_, ?_, ?_, ?_, ?_, ?_, ?_⟩
          · rw [List.length_set, l1, hb2]
            simp
          · rw [l2, hth2]
            simp
          · rw [l4, hr2]
            exact length_setRange _ _ _ _
          · rw [l3, hte2]
          · rw [l5, hpr2]
          · rw [l6, hpp2]
          · rw [getD_set_self _ _ _ _ hw3b]
            simp [bhpVal, hstop, hk]
          · rw [scanFold_thp _ _ _ t2 hw2t]
            have hinit : t2.thp_.getD w 0 = -10 ^ 100 := by
              rw [hth2]
              exact getD_set_self _ _ _ _ hwt
            rw [hinit]
            simp [thpVal, hstop, scanThp]
          · intro p hp
            rw [l4, hr2, getD_setRange_mem _ _ _ _ _ hp (by omega)]
            simp [rateVal, hstop, hk]
          · intro v hv
            obtain ⟨f1, f2⟩ := scanFold_frame (wells.ctrls w) w
              (List.range (well_controls_get_num (wells.ctrls w))) t2 v hv
            constructor
            · rw [getD_set_ne _ _ _ (Ne.symm hv), f1, hb2,
                getD_set_ne _ _ _ (Ne.symm hv)]
            · rw [f2, hth2, getD_set_ne _ _ _ (Ne.symm hv)]
          · intro j hj
            rw [l4, hr2]
            exact getD_setRange_of_notin _ _ _ _ _ hj
      | SURFACE_RATE =>
          set t2 : WellState := { s with
            wellrates_ := setRange s.wellrates_ (wells.number_of_phases * w)
              (fun p => well_controls_get_current_target (wells.ctrls w) *
                well_controls_get_current_distr (wells.ctrls w) p)
              wells.number_of_phases,
            thp_ := s.thp_.set w (-10 ^ 100),
            bhp_ := s.bhp_.set w (-10 ^ 100) } with ht2
          have hb2 : t2.bhp_ = s.bhp_.set w (-10 ^ 100) := by rw [ht2]
          have hth2 : t2.thp_ = s.thp_.set w (-10 ^ 100) := by rw [ht2]
          have hr2 : t2.wellrates_ = setRange s.wellrates_ (wells.number_of_phases * w)
              (fun p => well_controls_get_current_target (wells.ctrls w) *
                well_controls_get_current_distr (wells.ctrls w) p)
              wells.number_of_phases := by rw [ht2]
          have hte2 : t2.temperature_ = s.temperature_ := by rw [ht2]
          have hpr2 : t2.perfrates_ = s.perfrates_ := by rw [ht2]
          have hpp2 : t2.perfpress_ = s.perfpress_ := by rw [ht2]
          have hw2b : w < t2.bhp_.length := by
            rw [hb2]
            simpa using hwb
          have hw2t : w < t2.thp_.length := by
            rw [hth2]
            simpa using hwt
          obtain ⟨l1, l2, l3, l4, l5, l6⟩ := scanFold_static (wells.ctrls w) w
            (List.range (well_controls_get_num (wells.ctrls w))) t2
          have hw3b : w < ((List.range (well_controls_get_num (wells.ctrls w))).foldl
              (scanStep (wells.ctrls w) w) t2).bhp_.length := by
            rw [l1]
            exact hw2b
          refine ⟨_, processWell_open_surface wells pressure s w hty hstop hk t2
            ((List.range (well_controls_get_num (wells.ctrls w))).foldl
              (scanStep (wells.ctrls w) w) t2) ht2 rfl _ rfl,
            ?_, ?_, ?_, ?_, ?_, ?_, ?_, ?_, ?_, ?_, ?_⟩
          · rw [List.length_set, l1, hb2]
            simp
          · rw [l2, hth2]
            simp
          · rw [l4, hr2]
            exact length_setRange _ _ _ _
          · rw [l3, hte2]
          · rw [l5, hpr2]
          · rw [l6, hpp2]
          · rw [getD_set_self _ _ _ _ hw3b]
            simp [bhpVal, hstop, hk]
          · rw [scanFold_thp _ _ _ t2 hw2t]
            have hinit : t2.thp_.getD w 0 = -10 ^ 100 := by
              rw [hth2]
              exact getD_set_self _ _ _ _ hwt
            rw [hinit]
            simp [thpVal, hstop, scanThp]
          · intro p hp
            rw [l4, hr2, getD_setRange_mem _ _ _ _ _ hp (by omega)]
            simp [rateVal, hstop, hk]
          · intro v hv
            obtain ⟨f1, f2⟩ := scanFold_frame (wells.ctrls w) w
              (List.range (well_controls_get_num (wells.ctrls w))) t2 v hv
            constructor
            · rw [getD_set_ne _ _ _ (Ne.symm hv), f1, hb2,
                getD_set_ne _ _ _ (Ne.symm hv)]
            · rw [f2, hth2, getD_set_ne _ _ _ (Ne.symm hv)]
          · intro j hj
            rw [l4, hr2]
            exact getD_setRange_of_notin _ _ _ _ _ hj

/-- Invariant of the `for (w = 0; w < nw; ++w)` loop: after processing the
first `k` wells, wells `< k` hold their final values, wells `≥ k` still
hold the default-constructed zeros. -/
theorem initLoop_spec (wells : Wells) (pressure : Nat → ℚ)
    (Hty : ∀ w, w < wells.number_of_wells →
      wells.type w = INJECTOR ∨ wells.type w = PRODUCER) :
    ∀ k, k ≤ wells.number_of_wells →
    ∃ s : WellState,
      (List.range k).foldlM (processWell wells pressure)
        { bhp_ := List.replicate wells.number_of_wells 0,
          thp_ := List.replicate wells.number_of_wells 0,
          temperature_ := List.replicate wells.number_of_wells (27315 / 100 + 20),
          wellrates_ := List.replicate
            (wells.number_of_wells * wells.number_of_phases) 0,
          perfrates_ := [], perfpress_ := [] } = some s ∧
      s.bhp_.length = wells.number_of_wells ∧
      s.thp_.length = wells.number_of_wells ∧
      s.wellrates_.length = wells.number_of_wells * wells.number_of_phases ∧
      s.temperature_ = List.replicate wells.number_of_wells (27315 / 100 + 20) ∧
      s.perfrates_ = [] ∧
      s.perfpress_ = [] ∧
      (∀ w, w < k →
        s.bhp_.getD w 0 = bhpVal wells pressure w ∧
        s.thp_.getD w 0 = thpVal wells w ∧
        (∀ p, p < wells.number_of_phases →
          s.wellrates_.getD (wells.number_of_phases * w + p) 0 = rateVal wells w p)) ∧
      (∀ w, k ≤ w → s.bhp_.getD w 0 = 0 ∧ s.thp_.getD w 0 = 0) ∧
      (∀ j, wells.number_of_phases * k ≤ j → s.wellrates_.getD j 0 = 0) := by
  intro k
  induction k with
  | zero =>
      intro _
      refine ⟨_, rfl, ?_, ?_, ?_, rfl, rfl, rfl, ?_, ?_, ?_⟩
      · simp
      · simp
      · simp
      · intro w hw
        omega
      · intro w _
        constructor <;> simp [getD_replicate]
      · intro j _
        simp [getD_replicate]
  | succ k ih =>
      intro hk
      obtain ⟨s, hfold, hlb, hlt, hlr, htem, hpr, hpp, hvals, h0, h0r⟩ := ih (by omega)
      obtain ⟨s', hps, c1, c2, c3, c4, c5, c6, c7, c8, c9, c10, c11⟩ :=
        processWell_spec wells pressure s k (Hty k (by omega)) (by omega)
          hlb hlt hlr (h0 k le_rfl).1 (h0 k le_rfl).2
      refine ⟨s', ?_, c1.trans hlb, c2.trans hlt, c3.trans hlr, c4.trans htem,
        c5.trans hpr, c6.trans hpp, ?_, ?_, ?_⟩
      · rw [List.range_succ, List.foldlM_append, hfold]
        simp [List.foldlM_cons, List.foldlM_nil, hps]
      · intro w hw
        by_cases hwk : w = k
        · subst hwk
          exact ⟨c7, c8, c9⟩
        · obtain ⟨v1, v2, v3⟩ := hvals w (by omega)
          obtain ⟨f1, f2⟩ := c10 w hwk
          refine ⟨f1.trans v1, f2.trans v2, ?_⟩
          intro p hp
          have hm : wells.number_of_phases * (w + 1) ≤ wells.number_of_phases * k :=
            Nat.mul_le_mul_left _ (by omega)
          have hm2 : wells.number_of_phases * w + wells.number_of_phases
              = wells.number_of_phases * (w + 1) := by ring
          rw [c11 _ (by omega)]
          exact v3 p hp
      · intro w hw
        obtain ⟨f1, f2⟩ := c10 w (by omega)
        obtain ⟨z1, z2⟩ := h0 w (by omega)
        exact ⟨f1.trans z1, f2.trans z2⟩
      · intro j hj
        have hm : wells.number_of_phases * (k + 1)
            = wells.number_of_phases * k + wells.number_of_phases := by ring
        rw [c11 _ (by omega)]
        exact h0r _ (by omega)

/-- Top-level characterization of `WellState::init`: when every well type is
valid (so no assertion fires), the produced state has the documented array
shapes and every well's `bhp_`, `thp_` and rate slots hold `bhpVal`,
`thpVal`, `rateVal`. -/
theorem init_spec (wells : Wells) (pressure : Nat → ℚ)
    (Hty : ∀ w, w < wells.number_of_wells →
      wells.type w = INJECTOR ∨ wells.type w = PRODUCER) :
    ∃ s : WellState, init (some wells) pressure = some s ∧
      s.bhp_.length = wells.number_of_wells ∧
      s.thp_.length = wells.number_of_wells ∧
      s.wellrates_.length = wells.number_of_wells * wells.number_of_phases ∧
      s.temperature_ = List.replicate wells.number_of_wells (27315 / 100 + 20) ∧
      s.perfrates_ = List.replicate (wells.well_connpos wells.number_of_wells) 0 ∧
      s.perfpress_ = List.replicate (wells.well_connpos wells.number_of_wells)
        (-10 ^ 100) ∧
      (∀ w, w < wells.number_of_wells →
        s.bhp_.getD w 0 = bhpVal wells pressure w ∧
        s.thp_.getD w 0 = thpVal wells w ∧
        (∀ p, p < wells.number_of_phases →
          s.wellrates_.getD (wells.number_of_phases * w + p) 0 = rateVal wells w p)) := by
  obtain ⟨s, hfold, hlb, hlt, hlr, htem, hpr, hpp, hvals, h0, h0r⟩ :=
    initLoop_spec wells pressure Hty wells.number_of_wells le_rfl
  refine ⟨{ s with
      perfrates_ := List.replicate (wells.well_connpos wells.number_of_wells) 0,
      perfpress_ := List.replicate (wells.well_connpos wells.number_of_wells)
        (-10 ^ 100) }, ?_, hlb, hlt, hlr, htem, rfl, rfl, hvals⟩
  unfold init
  dsimp only
  rw [hfold]

/-! ## The assertion: when does `init` fail? -/

theorem processWell_isSome (wells : Wells) (pressure : Nat → ℚ)
    (s : WellState) (w : Nat) :
    (processWell wells pressure s w).isSome = true ↔
      wells.type w = INJECTOR ∨ wells.type w = PRODUCER := by
  unfold processWell
  by_cases h : wells.type w = INJECTOR ∨ wells.type w = PRODUCER
  · simp [h]
  · simp [h]

theorem foldlM_processWell_isSome (wells : Wells) (pressure : Nat → ℚ)
    (is : List Nat) :
    ∀ s : WellState,
      ((is.foldlM (processWell wells pressure) s).isSome = true) ↔
      ∀ w ∈ is, wells.type w = INJECTOR ∨ wells.type w = PRODUCER := by
  induction is with
  | nil => intro s; simp
  | cons i is ih =>
      intro s
      rw [List.foldlM_cons]
      cases hp : processWell wells pressure s i with
      | none =>
          have hnot : ¬(wells.type i = INJECTOR ∨ wells.type i = PRODUCER) := by
            have h := processWell_isSome wells pressure s i
            rw [hp] at h
            simpa using h
          simp [hnot]
      | some s' =>
          have hyes : wells.type i = INJECTOR ∨ wells.type i = PRODUCER := by
            have h := processWell_isSome wells pressure s i
            rw [hp] at h
            simpa using h
          have hbind : (some s' >>= fun t => is.foldlM (processWell wells pressure) t)
              = is.foldlM (processWell wells pressure) s' := rfl
          rw [hbind, ih s']
          simp [hyes]

/-- `WellState::init` completes without an assertion failure exactly when
every well's type is a valid `enum WellType` value; in particular a well
with zero connections does not make `init` fail. -/
theorem init_isSome_iff_well_types (wells : Wells) (pressure : Nat → ℚ) :
    (init (some wells) pressure).isSome = true ↔
      ∀ w, w < wells.number_of_wells →
        wells.type w = INJECTOR ∨ wells.type w = PRODUCER := by
  have h := foldlM_processWell_isSome wells pressure (List.range wells.number_of_wells)
    { bhp_ := List.replicate wells.number_of_wells 0,
      thp_ := List.replicate wells.number_of_wells 0,
      temperature_ := List.replicate wells.number_of_wells (27315 / 100 + 20),
      wellrates_ := List.replicate (wells.number_of_wells * wells.number_of_phases) 0,
      perfrates_ := [], perfpress_ := [] }
  unfold init
  dsimp only
  cases hf : (List.range wells.number_of_wells).foldlM (processWell wells pressure)
      { bhp_ := List.replicate wells.number_of_wells 0,
        thp_ := List.replicate wells.number_of_wells 0,
        temperature_ := List.replicate wells.number_of_wells (27315 / 100 + 20),
        wellrates_ := List.replicate (wells.number_of_wells * wells.number_of_phases) 0,
        perfrates_ := [], perfpress_ := [] } with
  | none =>
      rw [hf] at h
      simp only [Option.isSome_none] at h ⊢
      constructor
      · intro hfalse
        exact absurd hfalse (by simp)
      · intro hall
        simp only [Bool.false_eq_true, false_iff] at h
        exact absurd (fun w hw => hall w (List.mem_range.mp hw)) h
  | some s =>
      rw [hf] at h
      simp only [Option.isSome_some, true_iff] at h
      simp only [Option.isSome_some, true_iff]
      intro w hw
      exact h w (List.mem_range.mpr hw)

/-! ## Claim theorems: `WellState::init` -/

/-- C1: for every well whose current control kind is BHP, after `init` the
value `bhp_[w]` equals the current control's scalar target exactly, both
for stopped and open wells; for open wells under the policy assumption
that at most one BHP-kind control exists in the well's control list. -/
theorem init_bhp_eq_current_bhp_target (wells : Wells) (pressure : Nat → ℚ)
    (s : WellState)
    (hinit : init (some wells) pressure = some s)
    (w : Nat) (hw : w < wells.number_of_wells)
    (hcur : (wells.ctrls w).current < well_controls_get_num (wells.ctrls w))
    (hk : well_controls_get_current_type (wells.ctrls w) = WellControlType.BHP)
    (huniq : well_controls_well_is_stopped (wells.ctrls w) = false →
      ∀ i, i < well_controls_get_num (wells.ctrls w) →
        i ≠ (wells.ctrls w).current →
        well_controls_iget_type (wells.ctrls w) i ≠ WellControlType.BHP) :
    s.bhp_.getD w 0 = well_controls_get_current_target (wells.ctrls w) := by
  have Hty := (init_isSome_iff_well_types wells pressure).mp (by rw [hinit]; rfl)
  obtain ⟨s0, hinit0, hlb, hlt, hlr, htem, hpr, hpp, hvals⟩ := init_spec wells pressure Hty
  have hs : s0 = s := Option.some.inj (hinit0.symm.trans hinit)
  subst hs
  obtain ⟨hb, -, -⟩ := hvals w hw
  rw [hb]
  cases hstop : well_controls_well_is_stopped (wells.ctrls w) with
  | true => simp [bhpVal, hstop, hk]
  | false =>
      have hu := huniq hstop
      simp only [bhpVal, hstop, hk]
      simp only [Bool.false_eq_true, if_false]
      exact scanBhp_unique (wells.ctrls w) hcur hk hu _

/-- C2: for every open well whose current control kind is neither BHP nor
THP, after `init` the value `bhp_[w]` is the ambient pressure at the
well's first connection cell scaled by 1.01 for an injector and by 0.99
for a producer. -/
theorem init_open_default_bhp_scaled (wells : Wells) (pressure : Nat → ℚ)
    (s : WellState)
    (hinit : init (some wells) pressure = some s)
    (w : Nat) (hw : w < wells.number_of_wells)
    (hstop : well_controls_well_is_stopped (wells.ctrls w) = false)
    (hk1 : well_controls_get_current_type (wells.ctrls w) ≠ WellControlType.BHP)
    (hk2 : well_controls_get_current_type (wells.ctrls w) ≠ WellControlType.THP) :
    (wells.type w = INJECTOR →
      s.bhp_.getD w 0
        = (101 : ℚ) / 100 * pressure (wells.well_cells (wells.well_connpos w))) ∧
    (wells.type w = PRODUCER →
      s.bhp_.getD w 0
        = (99 : ℚ) / 100 * pressure (wells.well_cells (wells.well_connpos w))) := by
  have Hty := (init_isSome_iff_well_types wells pressure).mp (by rw [hinit]; rfl)
  obtain ⟨s0, hinit0, hlb, hlt, hlr, htem, hpr, hpp, hvals⟩ := init_spec wells pressure Hty
  have hs : s0 = s := Option.some.inj (hinit0.symm.trans hinit)
  subst hs
  obtain ⟨hb, -, -⟩ := hvals w hw
  rw [hb]
  constructor
  · intro hty
    cases hkv : well_controls_get_current_type (wells.ctrls w) with
    | BHP => exact absurd hkv hk1
    | THP => exact absurd hkv hk2
    | RESERVOIR_RATE => simp [bhpVal, hstop, hkv, hty]
    | SURFACE_RATE => simp [bhpVal, hstop, hkv, hty]
  · intro hty
    have hne : ¬(wells.type w = INJECTOR) := by
      rw [hty]
      unfold INJECTOR PRODUCER
      omega
    cases hkv : well_controls_get_current_type (wells.ctrls w) with
    | BHP => exact absurd hkv hk1
    | THP => exact absurd hkv hk2
    | RESERVOIR_RATE => simp [bhpVal, hstop, hkv, hne]
    | SURFACE_RATE => simp [bhpVal, hstop, hkv, hne]

/-- C3: for every stopped well whose current control kind is BHP, after
`init` the value `thp_[w]` keeps its default-constructed value `0` (the
THP-assignment branch is skipped), and in particular is not the `-1e100`
unset sentinel used elsewhere. -/
theorem init_stopped_bhp_thp_zero (wells : Wells) (pressure : Nat → ℚ)
    (s : WellState)
    (hinit : init (some wells) pressure = some s)
    (w : Nat) (hw : w < wells.number_of_wells)
    (hstop : well_controls_well_is_stopped (wells.ctrls w) = true)
    (hk : well_controls_get_current_type (wells.ctrls w) = WellControlType.BHP) :
    s.thp_.getD w 0 = 0 ∧ s.thp_.getD w 0 ≠ -10 ^ 100 := by
  have Hty := (init_isSome_iff_well_types wells pressure).mp (by rw [hinit]; rfl)
  obtain ⟨s0, hinit0, hlb, hlt, hlr, htem, hpr, hpp, hvals⟩ := init_spec wells pressure Hty
  have hs : s0 = s := Option.some.inj (hinit0.symm.trans hinit)
  subst hs
  obtain ⟨-, ht, -⟩ := hvals w hw
  rw [ht]
  constructor
  · simp [thpVal, hstop, hk]
  · simp [thpVal, hstop, hk]

/-- C4: for every open well whose current control kind is SurfaceRate,
with a per-phase distribution summing to 1 over the phases, after `init`
the well's rate in each phase `p` is the control's target multiplied by
the distribution entry for `p`. -/
theorem init_open_surface_rate_rates (wells : Wells) (pressure : Nat → ℚ)
    (s : WellState)
    (hinit : init (some wells) pressure = some s)
    (w : Nat) (hw : w < wells.number_of_wells)
    (hstop : well_controls_well_is_stopped (wells.ctrls w) = false)
    (hk : well_controls_get_current_type (wells.ctrls w) = WellControlType.SURFACE_RATE)
    (hsum : ((List.range wells.number_of_phases).map
      (well_controls_get_current_distr (wells.ctrls w))).sum = 1) :
    ∀ p, p < wells.number_of_phases →
      s.wellrates_.getD (wells.number_of_phases * w + p) 0
        = well_controls_get_current_target (wells.ctrls w) *
          well_controls_get_current_distr (wells.ctrls w) p := by
  have Hty := (init_isSome_iff_well_types wells pressure).mp (by rw [hinit]; rfl)
  obtain ⟨s0, hinit0, hlb, hlt, hlr, htem, hpr, hpp, hvals⟩ := init_spec wells pressure Hty
  have hs : s0 = s := Option.some.inj (hinit0.symm.trans hinit)
  subst hs
  obtain ⟨-, -, hr⟩ := hvals w hw
  intro p hp
  rw [hr p hp]
  simp [rateVal, hstop, hk]

/-- C8: for every stopped well whose current control kind is neither BHP
nor THP, after `init` the value `bhp_[w]` is the ambient pressure at the
well's first connection cell, `thp_[w]` is the `-1e100` unset sentinel,
and every phase rate of the well is `0`. -/
theorem init_stopped_default_branch (wells : Wells) (pressure : Nat → ℚ)
    (s : WellState)
    (hinit : init (some wells) pressure = some s)
    (w : Nat) (hw : w < wells.number_of_wells)
    (hstop : well_controls_well_is_stopped (wells.ctrls w) = true)
    (hk1 : well_controls_get_current_type (wells.ctrls w) ≠ WellControlType.BHP)
    (hk2 : well_controls_get_current_type (wells.ctrls w) ≠ WellControlType.THP) :
    s.bhp_.getD w 0 = pressure (wells.well_cells (wells.well_connpos w)) ∧
    s.thp_.getD w 0 = -10 ^ 100 ∧
    (∀ p, p < wells.number_of_phases →
      s.wellrates_.getD (wells.number_of_phases * w + p) 0 = 0) := by
  have Hty := (init_isSome_iff_well_types wells pressure).mp (by rw [hinit]; rfl)
  obtain ⟨s0, hinit0, hlb, hlt, hlr, htem, hpr, hpp, hvals⟩ := init_spec wells pressure Hty
  have hs : s0 = s := Option.some.inj (hinit0.symm.trans hinit)
  subst hs
  obtain ⟨hb, ht, hr⟩ := hvals w hw
  refine ⟨?_, ?_, ?_⟩
  · rw [hb]
    cases hkv : well_controls_get_current_type (wells.ctrls w) with
    | BHP => exact absurd hkv hk1
    | THP => exact absurd hkv hk2
    | RESERVOIR_RATE => simp [bhpVal, hstop, hkv]
    | SURFACE_RATE => simp [bhpVal, hstop, hkv]
  · rw [ht]
    cases hkv : well_controls_get_current_type (wells.ctrls w) with
    | BHP => exact absurd hkv hk1
    | THP => exact absurd hkv hk2
    | RESERVOIR_RATE => simp [thpVal, hstop, hkv]
    | SURFACE_RATE => simp [thpVal, hstop, hkv]
  · intro p hp
    rw [hr p hp]
    simp [rateVal, hstop]

/-- C9: for every open well whose current control kind is not SurfaceRate,
after `init` every phase rate of the well is `1e-14` in absolute value,
positive for an injector and negative for a producer. -/
theorem init_open_small_rate (wells : Wells) (pressure : Nat → ℚ)
    (s : WellState)
    (hinit : init (some wells) pressure = some s)
    (w : Nat) (hw : w < wells.number_of_wells)
    (hstop : well_controls_well_is_stopped (wells.ctrls w) = false)
    (hk : well_controls_get_current_type (wells.ctrls w) ≠ WellControlType.SURFACE_RATE) :
    ∀ p, p < wells.number_of_phases →
      (wells.type w = INJECTOR →
        s.wellrates_.getD (wells.number_of_phases * w + p) 0 = 1 / 10 ^ 14) ∧
      (wells.type w = PRODUCER →
        s.wellrates_.getD (wells.number_of_phases * w + p) 0 = -(1 / 10 ^ 14)) := by
  have Hty := (init_isSome_iff_well_types wells pressure).mp (by rw [hinit]; rfl)
  obtain ⟨s0, hinit0, hlb, hlt, hlr, htem, hpr, hpp, hvals⟩ := init_spec wells pressure Hty
  have hs : s0 = s := Option.some.inj (hinit0.symm.trans hinit)
  subst hs
  obtain ⟨-, -, hr⟩ := hvals w hw
  intro p hp
  rw [hr p hp]
  constructor
  · intro hty
    simp [rateVal, hstop, hk, hty]
  · intro hty
    have hne : ¬(wells.type w = INJECTOR) := by
      rw [hty]
      unfold INJECTOR PRODUCER
      omega
    simp [rateVal, hstop, hk, hne]

/-- C7: after `init` on any non-null input that passes the assertion, the
state arrays have the documented shapes: `wellrates_` has `nw*np` entries,
`bhp_`, `thp_` and `temperature_` have `nw` entries each, and
`perfrates_` / `perfpress_` have `well_connpos[nw]` entries (the total
connection count in the CSR layout), filled with `0` and the `-1e100`
unset sentinel respectively, independent of the control configuration. -/
theorem init_array_shapes (wells : Wells) (pressure : Nat → ℚ)
    (s : WellState)
    (hinit : init (some wells) pressure = some s) :
    s.wellrates_.length = wells.number_of_wells * wells.number_of_phases ∧
    s.bhp_.length = wells.number_of_wells ∧
    s.thp_.length = wells.number_of_wells ∧
    s.temperature_.length = wells.number_of_wells ∧
    s.perfrates_ = List.replicate (wells.well_connpos wells.number_of_wells) 0 ∧
    s.perfpress_
      = List.replicate (wells.well_connpos wells.number_of_wells) (-10 ^ 100) := by
  have Hty := (init_isSome_iff_well_types wells pressure).mp (by rw [hinit]; rfl)
  obtain ⟨s0, hinit0, hlb, hlt, hlr, htem, hpr, hpp, hvals⟩ := init_spec wells pressure Hty
  have hs : s0 = s := Option.some.inj (hinit0.symm.trans hinit)
  subst hs
  exact ⟨hlr, hlb, hlt, by rw [htem]; simp, hpr, hpp⟩

/-- C10: the restart offsets are the cumulative sizes of the state arrays
in the fixed order `bhp`, `perfPress`, `perfRates`, `temperature`,
`wellRates`: offset of `bhp` is 0, of `perfPress` is `bhp.size()`, of
`perfRates` is `bhp.size()+perfPress.size()`, the `temperature` offset
further adds `perfRates.size()`, and the `wellRates` offset adds
`temperature.size()`. -/
theorem restart_offsets_cumulative (s : WellState) :
    s.getRestartBhpOffset = 0 ∧
    s.getRestartPerfPressOffset = s.bhp_.length ∧
    s.getRestartPerfRatesOffset = s.bhp_.length + s.perfpress_.length ∧
    s.getRestartTemperatureOffset
      = s.bhp_.length + s.perfpress_.length + s.perfrates_.length ∧
    s.getRestartWellRatesOffset
      = s.bhp_.length + s.perfpress_.length + s.perfrates_.length
        + s.temperature_.length :=
  ⟨rfl, rfl, rfl, rfl, rfl⟩

/-! ## Column extraction -/

theorem range_filter_eq_single (m c : Nat) (h : c < m) :
    (List.range m).filter (fun r => r = c) = [c] := by
  induction m with
  | zero => omega
  | succ m ih =>
      rw [List.range_succ, List.filter_append]
      by_cases hc : c = m
      · subst hc
        have h1 : (List.range c).filter (fun r => r = c) = [] := by
          rw [List.filter_eq_nil_iff]
          intro a ha
          have := List.mem_range.mp ha
          simp only [decide_eq_true_eq]
          omega
        rw [h1]
        simp
      · rw [ih (by omega)]
        have h2 : [m].filter (fun r => r = c) = [] := by
          simp [Ne.symm hc]
        rw [h2]
        simp

theorem filter_mod_range (m sz c : Nat) (hc : c < m) :
    (List.range (m * sz)).filter (fun n => n % m = c)
      = (List.range sz).map (fun k => c + k * m) := by
  induction sz with
  | zero => simp
  | succ sz ih =>
      have hms : m * (sz + 1) = m * sz + m := by ring
      rw [hms, List.range_add, List.filter_append, ih, List.filter_map]
      have hcomp : ((fun n => decide (n % m = c)) ∘ (fun r => m * sz + r))
          = fun r => decide (r % m = c) := by
        funext r
        simp [Function.comp, Nat.mul_add_mod]
      rw [hcomp]
      have hcg : (List.range m).filter (fun r => r % m = c)
          = (List.range m).filter (fun r => r = c) := by
        apply List.filter_congr
        intro a ha
        rw [Nat.mod_eq_of_lt (List.mem_range.mp ha)]
      rw [hcg, range_filter_eq_single m c hc, List.range_succ, List.map_append]
      simp only [List.map_cons, List.map_nil]
      have harith : m * sz + c = c + sz * m := by ring
      rw [harith]

/-- C5: for a structured grid of size `sx × sy × sz`, `extractColumn`
produces exactly `sx*sy` columns, each of length `sz`, and column
`i + j*sx` lists exactly the cell ids `i + j*sx + k*sx*sy` for
`k = 0..sz-1`, in strictly increasing order. -/
theorem extractColumn_structured_grid (sx sy sz i j : Nat)
    (hi : i < sx) (hj : j < sy) :
    (extractColumn sx sy sz).length = sx * sy ∧
    (∀ col ∈ extractColumn sx sy sz, col.length = sz) ∧
    (extractColumn sx sy sz).getD (i + j * sx) []
      = (List.range sz).map (fun k => i + j * sx + k * (sx * sy)) ∧
    List.Pairwise (· < ·) ((extractColumn sx sy sz).getD (i + j * sx) []) := by
  have hc : i + j * sx < sx * sy := by
    have h1 : i + j * sx < (j + 1) * sx := by
      have : (j + 1) * sx = j * sx + sx := by ring
      omega
    have h2 : (j + 1) * sx ≤ sy * sx := Nat.mul_le_mul_right _ (by omega)
    have h3 : sy * sx = sx * sy := Nat.mul_comm _ _
    omega
  have hlen : (extractColumn sx sy sz).length = sx * sy := by
    simp [extractColumn]
  have hgetD : (extractColumn sx sy sz).getD (i + j * sx) []
      = (List.range sz).map (fun k => i + j * sx + k * (sx * sy)) := by
    rw [List.getD_eq_getElem _ _ (by rw [hlen]; exact hc)]
    unfold extractColumn
    rw [List.getElem_map, List.getElem_range]
    rw [filter_mod_range (sx * sy) sz (i + j * sx) hc]
  refine ⟨hlen, ?_, hgetD, ?_⟩
  · intro col hcol
    obtain ⟨c, hcmem, rfl⟩ := List.mem_map.mp hcol
    rw [filter_mod_range (sx * sy) sz c (List.mem_range.mp hcmem)]
    simp
  · rw [hgetD]
    rw [List.pairwise_map]
    have hpos : 0 < sx * sy := by omega
    refine List.Pairwise.imp ?_ (List.pairwise_lt_range sz)
    intro a b hab
    have := Nat.mul_lt_mul_of_pos_right hab hpos
    omega

/-! ## Witnesses and the assertion claim -/

/-- Witness for C1, at the spec's stopped-producer-BHP-5000 scenario. -/
theorem init_bhp_eq_current_bhp_target_witness :
    init (some wellsStopBhp) pres7 = some stateStopBhp ∧
    stateStopBhp.bhp_.getD 0 0 = well_controls_get_current_target (wellsStopBhp.ctrls 0) :=
  ⟨by rfl,
   init_bhp_eq_current_bhp_target wellsStopBhp pres7 stateStopBhp (by rfl) 0
     (by decide) (by decide) (by decide) (fun h => absurd h (by decide))⟩

/-- Witness for C2, at the open surface-rate injector: bhp is 1.01 times
the ambient pressure at its first connection cell. -/
theorem init_open_default_bhp_scaled_witness :
    init (some wellsSurfInj) pres7 = some stateSurfInj ∧
    stateSurfInj.bhp_.getD 0 0
      = (101 : ℚ) / 100 * pres7 (wellsSurfInj.well_cells (wellsSurfInj.well_connpos 0)) :=
  ⟨by rfl,
   (init_open_default_bhp_scaled wellsSurfInj pres7 stateSurfInj (by rfl) 0
     (by decide) (by decide) (by decide) (by decide)).1 (by decide)⟩

/-- Witness for C3, at the stopped-producer-BHP scenario: thp stays 0. -/
theorem init_stopped_bhp_thp_zero_witness :
    init (some wellsStopBhp) pres7 = some stateStopBhp ∧
    (stateStopBhp.thp_.getD 0 0 = 0 ∧ stateStopBhp.thp_.getD 0 0 ≠ -10 ^ 100) :=
  ⟨by rfl,
   init_stopped_bhp_thp_zero wellsStopBhp pres7 stateStopBhp (by rfl) 0
     (by decide) (by decide) (by decide)⟩

/-- Witness for C4, at the spec's injector scenario (target 100,
distribution (0.3, 0.7)): the two phase rates are target times the
distribution entries. -/
theorem init_open_surface_rate_rates_witness :
    init (some wellsSurfInj) pres7 = some stateSurfInj ∧
    stateSurfInj.wellrates_.getD (wellsSurfInj.number_of_phases * 0 + 0) 0
      = well_controls_get_current_target (wellsSurfInj.ctrls 0) *
        well_controls_get_current_distr (wellsSurfInj.ctrls 0) 0 ∧
    stateSurfInj.wellrates_.getD (wellsSurfInj.number_of_phases * 0 + 1) 0
      = well_controls_get_current_target (wellsSurfInj.ctrls 0) *
        well_controls_get_current_distr (wellsSurfInj.ctrls 0) 1 := by
  have t := init_open_surface_rate_rates wellsSurfInj pres7 stateSurfInj (by rfl) 0
    (by decide) (by decide) (by decide)
    (by norm_num [wellsSurfInj, ctrlSurf, well_controls_get_current_distr,
          dfltControl, List.range_succ])
  exact ⟨by rfl, t 0 (by decide), t 1 (by decide)⟩

/-- Witness for C5, at the 4×4×10 grid of the `FourByFourColumnTest`,
column (i,j) = (1,2). -/
theorem extractColumn_structured_grid_witness :
    (extractColumn 4 4 10).length = 4 * 4 ∧
    (∀ col ∈ extractColumn 4 4 10, col.length = 10) ∧
    (extractColumn 4 4 10).getD (1 + 2 * 4) []
      = (List.range 10).map (fun k => 1 + 2 * 4 + k * (4 * 4)) ∧
    List.Pairwise (· < ·) ((extractColumn 4 4 10).getD (1 + 2 * 4) []) :=
  extractColumn_structured_grid 4 4 10 1 2 (by decide) (by decide)

/-- Counterexample for C6 as stated: a well with zero connections
(`well_connpos[0] = well_connpos[1]`) that is open and whose current
control is SurfaceRate, so the open-well default branch is reached and
performs the first-connection lookup, yet `init` does NOT fail — the
reference code contains no assertion for this situation. -/
theorem init_zero_connection_no_assert :
    wellsNoConn.well_connpos 1 = wellsNoConn.well_connpos 0 ∧
    well_controls_well_is_stopped (wellsNoConn.ctrls 0) = false ∧
    well_controls_get_current_type (wellsNoConn.ctrls 0) ≠ WellControlType.BHP ∧
    well_controls_get_current_type (wellsNoConn.ctrls 0) ≠ WellControlType.THP ∧
    (init (some wellsNoConn) pres7).isSome = true := by
  decide

/-- C6 (amended): `init` fails with the defensive assertion exactly when
some well's type is neither Injector nor Producer; the zero-connection
first-connection lookup triggers no assertion, and for input whose well
types are all valid no error path exists. -/
theorem init_assert_iff_bad_well_type (wells : Wells) (pressure : Nat → ℚ) :
    init (some wells) pressure = none ↔
      ∃ w, w < wells.number_of_wells ∧
        ¬(wells.type w = INJECTOR ∨ wells.type w = PRODUCER) := by
  have h := init_isSome_iff_well_types wells pressure
  constructor
  · intro hnone
    rw [hnone] at h
    simp only [Option.isSome_none, Bool.false_eq_true, false_iff] at h
    push_neg at h
    obtain ⟨w, hw, h1, h2⟩ := h
    exact ⟨w, hw, by tauto⟩
  · intro ⟨w, hw, hbad⟩
    cases hi : init (some wells) pressure with
    | none => rfl
    | some s =>
        rw [hi] at h
        simp only [Option.isSome_some, true_iff] at h
        exact absurd (h w hw) hbad

/-- Witness for C7, at the open surface-rate injector input. -/
theorem init_array_shapes_witness :
    init (some wellsSurfInj) pres7 = some stateSurfInj ∧
    (stateSurfInj.wellrates_.length
        = wellsSurfInj.number_of_wells * wellsSurfInj.number_of_phases ∧
      stateSurfInj.bhp_.length = wellsSurfInj.number_of_wells ∧
      stateSurfInj.thp_.length = wellsSurfInj.number_of_wells ∧
      stateSurfInj.temperature_.length = wellsSurfInj.number_of_wells ∧
      stateSurfInj.perfrates_
        = List.replicate (wellsSurfInj.well_connpos wellsSurfInj.number_of_wells) 0 ∧
      stateSurfInj.perfpress_
        = List.replicate (wellsSurfInj.well_connpos wellsSurfInj.number_of_wells)
            (-10 ^ 100)) :=
  ⟨by rfl, init_array_shapes wellsSurfInj pres7 stateSurfInj (by rfl)⟩

/-- Witness for C8, at the stopped producer whose current control is
SurfaceRate. -/
theorem init_stopped_default_branch_witness :
    init (some wellsStopSurf) pres7 = some stateStopSurf ∧
    stateStopSurf.bhp_.getD 0 0
      = pres7 (wellsStopSurf.well_cells (wellsStopSurf.well_connpos 0)) ∧
    stateStopSurf.thp_.getD 0 0 = -10 ^ 100 ∧
    stateStopSurf.wellrates_.getD (wellsStopSurf.number_of_phases * 0 + 0) 0 = 0 := by
  have t := init_stopped_default_branch wellsStopSurf pres7 stateStopSurf (by rfl) 0
    (by decide) (by decide) (by decide) (by decide)
  exact ⟨by rfl, t.1, t.2.1, t.2.2 0 (by decide)⟩

/-- Witness for C9, at the open reservoir-rate injector: the seeded phase
rate is +1e-14. -/
theorem init_open_small_rate_witness :
    init (some wellsResInj) pres7 = some stateResInj ∧
    stateResInj.wellrates_.getD (wellsResInj.number_of_phases * 0 + 0) 0
      = 1 / 10 ^ 14 := by
  have t := init_open_small_rate wellsResInj pres7 stateResInj (by rfl) 0
    (by decide) (by decide) (by decide)
  exact ⟨by rfl, (t 0 (by decide)).1 (by decide)⟩
